import Mathlib

set_option linter.unusedVariables false

/-!
Verification of the ARC (atomic reference counting) header library `arc.h`.

The C code is embedded shallowly, under a sequential atomic semantics: each
atomic load / fetch-add / fetch-sub / compare-exchange is one transformation
of the header state, and a compare-and-swap retry loop whose snapshot is not
invalidated between iterations succeeds on its first attempt (in the absence
of interference there is exactly one iteration).  Memory-ordering annotations
(relaxed / release / acquire fences) have no effect on the sequential values
and are recorded only in comments.

The target platform is LP64 (the platform of the repository's build):
`sizeof(size_t) = sizeof(uintptr_t) = 8`, so `size_t` arithmetic is modulo
`2^64`, `SIZE_MAX = 2^64 - 1`, and `sizeof(arc_header_t) = 16` (two
`atomic_size_t` counters).

Side effects that the claims talk about (destructor invocations, calls of
`weak_free`, the single `free(header)` of the allocation) are reified as an
event list in each operation's result, read off directly from the code paths.
-/

/-- Modulus of `size_t` arithmetic on the LP64 target. -/
def USIZE_MOD : Nat := 2 ^ 64

/-- SIZE_MAX on the LP64 target. -/
def SIZE_MAX : Nat := USIZE_MOD - 1

/-- The header record: `struct arc_header { atomic_size_t weak_count; atomic_size_t strong_count; }`. -/
structure arc_header where
  weak_count : Nat
  strong_count : Nat
deriving DecidableEq

/-- `sizeof(arc_header_t)`: two 8-byte counters on LP64. -/
def ARC_HEADER_SIZEOF : Nat := 16

/-- `static const size_t __ARC_ALIGN_BITS = sizeof(uintptr_t)-1;` -/
def ARC_ALIGN_BITS : Nat := 8 - 1

/-- `static const size_t __ARC_HEADER_SIZE_WITH_PAD = (sizeof(arc_header_t)+__ARC_ALIGN_BITS) & ~__ARC_ALIGN_BITS;`
(`~x` in `size_t` is `SIZE_MAX - x`). -/
def ARC_HEADER_SIZE_WITH_PAD : Nat :=
  Nat.land (ARC_HEADER_SIZEOF + ARC_ALIGN_BITS) (SIZE_MAX - ARC_ALIGN_BITS)

/-- `const size_t __ARC_WEAK_MAX_REFS = SIZE_MAX>>1;` -/
def ARC_WEAK_MAX_REFS : Nat := Nat.shiftRight SIZE_MAX 1

/-- `static arc_header_t *get_header(void *data)`: pointer subtraction of the
padded header size (addresses are modelled as natural byte addresses). -/
def get_header (data : Nat) : Nat := data - ARC_HEADER_SIZE_WITH_PAD

/-- The `errno` values the library assigns on failure. -/
inductive ArcErrno where
  | ETOOMANYREFS
  | ENOENT
deriving DecidableEq

/-- Observable side effects of one operation, in program order:
a destructor invocation on an address, a call of `weak_free` on an address,
and `free(header)` returning the allocation to the allocator. -/
inductive Ev where
  | dtorCall (addr : Nat)
  | weakFreeCall (addr : Nat)
  | dealloc
deriving DecidableEq

/-- Result of one header operation: the header after the operation, the
returned pointer (`none` for `NULL` or for `void` functions), the `errno`
value set on this call, and the emitted events. -/
structure OpResult where
  header : arc_header
  ret : Option Nat
  err : Option ArcErrno
  events : List Ev
deriving DecidableEq

/-- `void weak_free(void *weak_data)`: release-decrement `weak_count`; if the
pre-decrement value was 1, acquire fence and `free(header)`. -/
def weak_free (weak_data : Nat) (h : arc_header) : OpResult :=
  let prev := h.weak_count
  let h' : arc_header := ⟨(prev + (USIZE_MOD - 1)) % USIZE_MOD, h.strong_count⟩
  if prev = 1 then
    ⟨h', none, none, [Ev.dealloc]⟩
  else
    ⟨h', none, none, []⟩

/-- `void arc_free(void *arc_data, void(*destructor)(void *))`:
release-decrement `strong_count`; if the pre-decrement value was 1, acquire
fence, run the destructor (when non-`NULL`) on `arc_data`, then call
`weak_free` on the same address.  The destructor pointer is modelled by its
non-`NULL`-ness. -/
def arc_free (arc_data : Nat) (destructor : Bool) (h : arc_header) : OpResult :=
  let prev := h.strong_count
  let h1 : arc_header := ⟨h.weak_count, (prev + (USIZE_MOD - 1)) % USIZE_MOD⟩
  if prev = 1 then
    let wr := weak_free arc_data h1
    ⟨wr.header, none, wr.err,
      (if destructor then [Ev.dtorCall arc_data] else [])
        ++ Ev.weakFreeCall arc_data :: wr.events⟩
  else
    ⟨h1, none, none, []⟩

/-- `void *arc_clone(void *arc_data)`: relaxed fetch-add on `strong_count`;
if the pre-increment value exceeds `__ARC_WEAK_MAX_REFS-1`, set
`errno = ETOOMANYREFS` and return `NULL` (the increment has already
committed); otherwise return the same address. -/
def arc_clone (arc_data : Nat) (h : arc_header) : OpResult :=
  let prev := h.strong_count
  let h' : arc_header := ⟨h.weak_count, (prev + 1) % USIZE_MOD⟩
  if prev > ARC_WEAK_MAX_REFS - 1 then
    ⟨h', none, some ArcErrno.ETOOMANYREFS, []⟩
  else
    ⟨h', some arc_data, none, []⟩

/-- `void *weak_clone(void *weak_data)`: relaxed fetch-add on `weak_count`,
same overflow guard as `arc_clone`. -/
def weak_clone (weak_data : Nat) (h : arc_header) : OpResult :=
  let prev := h.weak_count
  let h' : arc_header := ⟨(prev + 1) % USIZE_MOD, h.strong_count⟩
  if prev > ARC_WEAK_MAX_REFS - 1 then
    ⟨h', none, some ArcErrno.ETOOMANYREFS, []⟩
  else
    ⟨h', some weak_data, none, []⟩

/-- `void *arc_downgrade(void *arc_data)`: CAS retry loop on `weak_count`
with no guard in the loop body; sequentially the CAS from the loaded snapshot
succeeds at once, so the operation is the unconditional increment
`weak_count := snapshot + 1` (modulo `2^64`) and returns the same address. -/
def arc_downgrade (arc_data : Nat) (h : arc_header) : OpResult :=
  let snapshot := h.weak_count
  ⟨⟨(snapshot + 1) % USIZE_MOD, h.strong_count⟩, some arc_data, none, []⟩

/-- `void *weak_upgrade(void *weak_data)`: CAS retry loop on `strong_count`.
If the snapshot is 0, set `errno = ENOENT` and return `NULL`; if it exceeds
`__ARC_WEAK_MAX_REFS-1`, set `errno = ETOOMANYREFS` and return `NULL`;
otherwise CAS `snapshot -> snapshot+1` (acquire on success) and return the
same address.  Sequentially the first CAS succeeds. -/
def weak_upgrade (weak_data : Nat) (h : arc_header) : OpResult :=
  let snapshot := h.strong_count
  if snapshot = 0 then
    ⟨h, none, some ArcErrno.ENOENT, []⟩
  else if snapshot > ARC_WEAK_MAX_REFS - 1 then
    ⟨h, none, some ArcErrno.ETOOMANYREFS, []⟩
  else
    ⟨⟨h.weak_count, (snapshot + 1) % USIZE_MOD⟩, some weak_data, none, []⟩

/-- Which of the two early-return guards of `arc_new` fired (both return
`NULL` in the source; the spec names them `InvalidSize` and `OutOfMemory`). -/
inductive NewErr where
  | InvalidSize
  | OutOfMemory
deriving DecidableEq

/-- Result of `arc_new`: the returned pointer, the initialized header (when
allocation succeeded), the size passed to `malloc` (when `malloc` was
called), and the failure branch taken. -/
structure NewResult where
  ret : Option Nat
  hdr : Option arc_header
  mallocRequest : Option Nat
  err : Option NewErr
deriving DecidableEq

/-- `void *arc_new(size_t nbytes)`: reject `nbytes == 0`; otherwise
`malloc(__ARC_HEADER_SIZE_WITH_PAD + nbytes)` (the allocator is a parameter
mapping a request size to the base address it returns, or `none` on
exhaustion), initialize `strong_count = 1`, `weak_count = 1`, and return
`base + __ARC_HEADER_SIZE_WITH_PAD`. -/
def arc_new (nbytes : Nat) (malloc : Nat → Option Nat) : NewResult :=
  if nbytes = 0 then
    ⟨none, none, none, some NewErr.InvalidSize⟩
  else
    match malloc (ARC_HEADER_SIZE_WITH_PAD + nbytes) with
    | none => ⟨none, none, some (ARC_HEADER_SIZE_WITH_PAD + nbytes), some NewErr.OutOfMemory⟩
    | some base =>
        ⟨some (base + ARC_HEADER_SIZE_WITH_PAD), some ⟨1, 1⟩,
          some (ARC_HEADER_SIZE_WITH_PAD + nbytes), none⟩

/-- Invariant A of the spec: `weak_count >= 1` whenever `strong_count > 0`
(the implicit weak claim held collectively by the strong handles). -/
abbrev InvA (h : arc_header) : Prop := 0 < h.strong_count → 1 ≤ h.weak_count

/-- One legal use of the public interface on one allocation's header.  Each
constructor applies an operation of `arc.h` to a handle the caller
legitimately holds, expressed at counter level: a strong-handle operation
requires a live strong handle (`strong_count >= 1`), and a weak-handle
operation requires a live explicit weak claim (beyond the implicit claim
when `strong_count > 0`, hence `weak_count >= 2` in that case). -/
inductive Step : arc_header → arc_header → Prop where
  | clone (d : Nat) (g : arc_header) (hg : 1 ≤ g.strong_count) :
      Step g (arc_clone d g).header
  | strongFree (d : Nat) (b : Bool) (g : arc_header) (hg : 1 ≤ g.strong_count) :
      Step g (arc_free d b g).header
  | downgrade (d : Nat) (g : arc_header) (hg : 1 ≤ g.strong_count) :
      Step g (arc_downgrade d g).header
  | weakClone (d : Nat) (g : arc_header)
      (hg : (if 0 < g.strong_count then 2 else 1) ≤ g.weak_count) :
      Step g (weak_clone d g).header
  | weakFree (d : Nat) (g : arc_header)
      (hg : (if 0 < g.strong_count then 2 else 1) ≤ g.weak_count) :
      Step g (weak_free d g).header
  | upgrade (d : Nat) (g : arc_header)
      (hg : (if 0 < g.strong_count then 2 else 1) ≤ g.weak_count) :
      Step g (weak_upgrade d g).header

/-- Headers reachable by legal interface use from a given header. -/
def Reachable : arc_header → arc_header → Prop := Relation.ReflTransGen Step

/-- An operation of a strong-handle Clone/Free sequence. -/
inductive SOp where
  | clone
  | free
deriving DecidableEq

/-- Apply one sequence operation to the header (the handle address and the
destructor are irrelevant to the counters). -/
def sopNext (h : arc_header) : SOp → arc_header
  | SOp.clone => (arc_clone 0 h).header
  | SOp.free => (arc_free 0 false h).header

/-- Run a Clone/Free sequence on a header. -/
def sopRun : arc_header → List SOp → arc_header
  | h, [] => h
  | h, op :: rest => sopRun (sopNext h op) rest

/-- The sequence is made of successful clones (pre-increment value within
the ceiling) and non-final frees (pre-decrement value greater than 1). -/
def sopOK : arc_header → List SOp → Bool
  | _, [] => true
  | h, SOp.clone :: rest =>
      decide (h.strong_count ≤ ARC_WEAK_MAX_REFS - 1) && sopOK (sopNext h SOp.clone) rest
  | h, SOp.free :: rest =>
      decide (2 ≤ h.strong_count) && sopOK (sopNext h SOp.free) rest

/-- Number of clones in a sequence. -/
def nclone : List SOp → Nat
  | [] => 0
  | SOp.clone :: r => nclone r + 1
  | SOp.free :: r => nclone r

/-- Number of frees in a sequence. -/
def nfree : List SOp → Nat
  | [] => 0
  | SOp.clone :: r => nfree r
  | SOp.free :: r => nfree r + 1

-- Numeric values of the layout constants on the LP64 target.

theorem header_pad_eq : ARC_HEADER_SIZE_WITH_PAD = 16 := by decide

theorem max_refs_eq : ARC_WEAK_MAX_REFS = 2 ^ 63 - 1 := by decide

theorem size_max_half_eq : SIZE_MAX / 2 = 2 ^ 63 - 1 := by decide

-- Arithmetic helpers for size_t increment/decrement.

theorem usize_mod_pos : 0 < USIZE_MOD := by decide

theorem dec_mod (x : Nat) (h1 : 1 ≤ x) (h2 : x < USIZE_MOD) :
    (x + (USIZE_MOD - 1)) % USIZE_MOD = x - 1 := by
  have hM : 1 ≤ USIZE_MOD := usize_mod_pos
  have e : x + (USIZE_MOD - 1) = (x - 1) + USIZE_MOD := by omega
  rw [e, Nat.add_mod_right, Nat.mod_eq_of_lt]
  omega

theorem inc_mod (x : Nat) (h : x + 1 < USIZE_MOD) :
    (x + 1) % USIZE_MOD = x + 1 := Nat.mod_eq_of_lt h

theorem max_refs_lt_mod : ARC_WEAK_MAX_REFS + 1 < USIZE_MOD := by decide

-- Header projections of each operation, independent of the taken branch.

theorem arc_clone_header (d : Nat) (h : arc_header) :
    (arc_clone d h).header = ⟨h.weak_count, (h.strong_count + 1) % USIZE_MOD⟩ := by
  by_cases hc : h.strong_count > ARC_WEAK_MAX_REFS - 1 <;> simp [arc_clone, hc]

theorem weak_clone_header (d : Nat) (h : arc_header) :
    (weak_clone d h).header = ⟨(h.weak_count + 1) % USIZE_MOD, h.strong_count⟩ := by
  by_cases hc : h.weak_count > ARC_WEAK_MAX_REFS - 1 <;> simp [weak_clone, hc]

theorem arc_downgrade_header (d : Nat) (h : arc_header) :
    (arc_downgrade d h).header = ⟨(h.weak_count + 1) % USIZE_MOD, h.strong_count⟩ := rfl

theorem weak_free_header (d : Nat) (h : arc_header) :
    (weak_free d h).header
      = ⟨(h.weak_count + (USIZE_MOD - 1)) % USIZE_MOD, h.strong_count⟩ := by
  by_cases hw : h.weak_count = 1 <;> simp [weak_free, hw]

theorem arc_free_header (d : Nat) (b : Bool) (h : arc_header) :
    (arc_free d b h).header =
      if h.strong_count = 1
      then ⟨(h.weak_count + (USIZE_MOD - 1)) % USIZE_MOD, 0⟩
      else ⟨h.weak_count, (h.strong_count + (USIZE_MOD - 1)) % USIZE_MOD⟩ := by
  by_cases hs : h.strong_count = 1 <;> by_cases hw : h.weak_count = 1 <;>
    simp [arc_free, weak_free, hs, hw,
      show (1 + (USIZE_MOD - 1)) % USIZE_MOD = 0 by decide]

theorem weak_upgrade_header (d : Nat) (h : arc_header) :
    (weak_upgrade d h).header =
      if 0 < h.strong_count ∧ h.strong_count ≤ ARC_WEAK_MAX_REFS - 1
      then ⟨h.weak_count, (h.strong_count + 1) % USIZE_MOD⟩
      else h := by
  by_cases h0 : h.strong_count = 0
  · rw [if_neg (by omega)]
    simp [weak_upgrade, h0]
  · by_cases hc : h.strong_count > ARC_WEAK_MAX_REFS - 1
    · rw [if_neg (by omega)]
      simp [weak_upgrade, h0, hc]
    · rw [if_pos (by omega)]
      simp [weak_upgrade, h0, hc]

/-- Claim C7: for the requested payload size 0, `arc_new` fails on the
`nbytes == 0` guard (the spec's `InvalidSize` failure), returning `NULL`
without ever calling the allocator. -/
theorem arc_new_zero_size (malloc : Nat → Option Nat) :
    arc_new 0 malloc = ⟨none, none, none, some NewErr.InvalidSize⟩ := rfl

/-- Claim C6: for every payload size `n > 0` on which the allocator succeeds
with base address `base`, `arc_new` requests exactly
`ARC_HEADER_SIZE_WITH_PAD + n` bytes, initializes `strong_count = 1` and
`weak_count = 1`, returns `base + ARC_HEADER_SIZE_WITH_PAD`, and
`get_header` applied to the returned address recovers `base`. -/
theorem arc_new_layout (n base : Nat) (malloc : Nat → Option Nat)
    (hn : 0 < n) (hm : malloc (ARC_HEADER_SIZE_WITH_PAD + n) = some base) :
    arc_new n malloc =
      ⟨some (base + ARC_HEADER_SIZE_WITH_PAD), some ⟨1, 1⟩,
        some (ARC_HEADER_SIZE_WITH_PAD + n), none⟩
    ∧ get_header (base + ARC_HEADER_SIZE_WITH_PAD) = base := by
  constructor
  · unfold arc_new
    rw [if_neg (by omega), hm]
  · unfold get_header
    omega

/-- Witness for C6 at `n = 4` with an allocator that returns base 1000. -/
theorem arc_new_layout_witness :
    arc_new 4 (fun _ => some 1000) =
      ⟨some (1000 + ARC_HEADER_SIZE_WITH_PAD), some ⟨1, 1⟩,
        some (ARC_HEADER_SIZE_WITH_PAD + 4), none⟩
    ∧ get_header (1000 + ARC_HEADER_SIZE_WITH_PAD) = 1000 :=
  arc_new_layout 4 1000 (fun _ => some 1000) (by decide) rfl

/-- Claim C1: `weak_free` deallocates (emits the single `free(header)`)
exactly when the pre-decrement `weak_count` is 1; no other operation emits a
deallocation, and `arc_free` deallocates only through its internal
`weak_free` call, that is exactly when `strong_count = 1` and
`weak_count = 1` before the call. -/
theorem dealloc_only_in_weak_free (d : Nat) (b : Bool) (h : arc_header) :
    ((weak_free d h).events = if h.weak_count = 1 then [Ev.dealloc] else [])
    ∧ (arc_clone d h).events = []
    ∧ (weak_clone d h).events = []
    ∧ (arc_downgrade d h).events = []
    ∧ (weak_upgrade d h).events = []
    ∧ (Ev.dealloc ∈ (arc_free d b h).events ↔
        h.strong_count = 1 ∧ h.weak_count = 1) := by
  refine ⟨?_, ?_, ?_, ?_, ?_, ?_⟩
  · unfold weak_free
    split <;> simp_all
  · by_cases hc : h.strong_count > ARC_WEAK_MAX_REFS - 1 <;> simp [arc_clone, hc]
  · by_cases hc : h.weak_count > ARC_WEAK_MAX_REFS - 1 <;> simp [weak_clone, hc]
  · rfl
  · by_cases h0 : h.strong_count = 0 <;>
      by_cases hc : h.strong_count > ARC_WEAK_MAX_REFS - 1 <;>
        simp [weak_upgrade, h0, hc]
  · unfold arc_free weak_free
    by_cases hs : h.strong_count = 1 <;>
      by_cases hw : h.weak_count = 1 <;>
        cases b <;> simp_all

/-- Claim C2: when the pre-decrement `strong_count` is 1, `arc_free` runs the
destructor (when provided) exactly once on the payload address and then calls
`weak_free` on the same address, which decrements `weak_count`; when the
pre-decrement `strong_count` is greater than 1, `arc_free` only decrements
`strong_count`, runs no destructor, calls no `weak_free`, and leaves
`weak_count` untouched. -/
theorem arc_free_spec (d : Nat) (b : Bool) (h : arc_header)
    (hW : h.weak_count < USIZE_MOD) (hS : h.strong_count < USIZE_MOD) :
    (h.strong_count = 1 →
      (arc_free d b h).events
        = (if b then [Ev.dtorCall d] else []) ++ Ev.weakFreeCall d ::
            (if h.weak_count = 1 then [Ev.dealloc] else [])
      ∧ (arc_free d b h).header
        = ⟨(h.weak_count + (USIZE_MOD - 1)) % USIZE_MOD, 0⟩)
    ∧ (1 < h.strong_count →
      (arc_free d b h).header = ⟨h.weak_count, h.strong_count - 1⟩
      ∧ (arc_free d b h).events = []) := by
  constructor
  · intro hs
    unfold arc_free weak_free
    rw [if_pos hs, hs]
    constructor
    · simp
      split <;> simp_all
    · simp [dec_mod 1 (by omega) (by decide)]
      split <;> rfl
  · intro hs
    unfold arc_free
    rw [if_neg (by omega)]
    exact ⟨by simp [dec_mod h.strong_count (by omega) hS], rfl⟩

/-- Witness for C2 at the last strong owner of a header with one weak claim:
the destructor runs once, then `weak_free` deallocates. -/
theorem arc_free_spec_witness :
    (arc_free 0 true ⟨1, 1⟩).events
      = (if true then [Ev.dtorCall 0] else []) ++ Ev.weakFreeCall 0 ::
          (if (1 : Nat) = 1 then [Ev.dealloc] else [])
    ∧ (arc_free 0 true ⟨1, 1⟩).header
      = ⟨(1 + (USIZE_MOD - 1)) % USIZE_MOD, 0⟩ :=
  (arc_free_spec 0 true ⟨1, 1⟩ (by decide) (by decide)).1 rfl

/-- Claim C10: whenever `weak_upgrade` fails (its `errno` is set) it has
returned before any successful compare-and-swap, so the header — both
`strong_count` and `weak_count` — is exactly the pre-call header; in
contrast, a failing `arc_clone` or `weak_clone` has already committed its
increment to the counter. -/
theorem weak_upgrade_error_atomicity (d : Nat) (h : arc_header) :
    ((weak_upgrade d h).err.isSome →
      (weak_upgrade d h).header = h ∧ (weak_upgrade d h).ret = none)
    ∧ ((arc_clone d h).err.isSome →
      (arc_clone d h).header.strong_count = (h.strong_count + 1) % USIZE_MOD)
    ∧ ((weak_clone d h).err.isSome →
      (weak_clone d h).header.weak_count = (h.weak_count + 1) % USIZE_MOD) := by
  refine ⟨?_, ?_, ?_⟩
  · by_cases h0 : h.strong_count = 0 <;>
      by_cases hc : h.strong_count > ARC_WEAK_MAX_REFS - 1 <;>
        simp [weak_upgrade, h0, hc]
  · by_cases hc : h.strong_count > ARC_WEAK_MAX_REFS - 1 <;> simp [arc_clone, hc]
  · by_cases hc : h.weak_count > ARC_WEAK_MAX_REFS - 1 <;> simp [weak_clone, hc]

/-- Witness for C10: upgrading with no strong owner fails and leaves the
header untouched. -/
theorem weak_upgrade_error_atomicity_witness :
    (weak_upgrade 0 ⟨1, 0⟩).header = ⟨1, 0⟩ ∧ (weak_upgrade 0 ⟨1, 0⟩).ret = none :=
  (weak_upgrade_error_atomicity 0 ⟨1, 0⟩).1 (by decide)

/-- Claim C3: on a live allocation, `weak_upgrade` succeeds — returning the
strong handle with `strong_count` incremented by exactly 1 and `weak_count`
untouched — exactly when the observed `strong_count` is positive and does not
exceed the enforced ceiling; an observed 0 fails terminally with
`errno = ENOENT` (the spec's `NoStrongOwner`), and an observed value above
the ceiling fails with `errno = ETOOMANYREFS` (the spec's
`RefCountOverflow`), both without changing the header. -/
theorem weak_upgrade_spec (d : Nat) (h : arc_header)
    (hlive : 1 ≤ h.weak_count) (hS : h.strong_count < USIZE_MOD) :
    ((weak_upgrade d h).ret = some d ∧ (weak_upgrade d h).err = none
      ↔ 0 < h.strong_count ∧ h.strong_count ≤ ARC_WEAK_MAX_REFS - 1)
    ∧ ((weak_upgrade d h).ret.isSome →
      (weak_upgrade d h).header.strong_count = h.strong_count + 1
      ∧ (weak_upgrade d h).header.weak_count = h.weak_count)
    ∧ (h.strong_count = 0 →
      (weak_upgrade d h).ret = none
      ∧ (weak_upgrade d h).err = some ArcErrno.ENOENT
      ∧ (weak_upgrade d h).header = h)
    ∧ (ARC_WEAK_MAX_REFS - 1 < h.strong_count →
      (weak_upgrade d h).ret = none
      ∧ (weak_upgrade d h).err = some ArcErrno.ETOOMANYREFS
      ∧ (weak_upgrade d h).header = h) := by
  have h1 : 1 ≤ ARC_WEAK_MAX_REFS := by decide
  have h2 : ARC_WEAK_MAX_REFS + 1 < USIZE_MOD := max_refs_lt_mod
  by_cases h0 : h.strong_count = 0
  · simp [weak_upgrade, h0]
  · by_cases hc : h.strong_count > ARC_WEAK_MAX_REFS - 1
    · simp [weak_upgrade, h0, hc]
    · simp [weak_upgrade, h0, hc, inc_mod h.strong_count (by omega)]
      omega

/-- Witness for C3: upgrading against one strong owner succeeds and bumps
the strong count from 1 to 2. -/
theorem weak_upgrade_spec_witness :
    (weak_upgrade 0 ⟨1, 1⟩).header.strong_count = 1 + 1
    ∧ (weak_upgrade 0 ⟨1, 1⟩).header.weak_count = 1 :=
  (weak_upgrade_spec 0 ⟨1, 1⟩ (by decide) (by decide)).2.1 (by decide)

/-- Counterexample to Claim C5 as stated: at pre-increment
`strong_count = SIZE_MAX/2` the pre-increment value does not exceed the
ceiling `SIZE_MAX/2`, yet `arc_clone` fails with the overflow errno — the
code's guard `prev > __ARC_WEAK_MAX_REFS-1` fires already at
`prev = SIZE_MAX/2`. -/
theorem clone_ceiling_counterexample :
    ¬ (SIZE_MAX / 2 < SIZE_MAX / 2)
    ∧ (arc_clone 0 ⟨1, SIZE_MAX / 2⟩).ret = none
    ∧ (arc_clone 0 ⟨1, SIZE_MAX / 2⟩).err = some ArcErrno.ETOOMANYREFS := by
  decide

/-- Claim C5 (amended): `arc_clone` and `weak_clone` fail with
`errno = ETOOMANYREFS` (the spec's `RefCountOverflow`) exactly when the
pre-increment value of the respective counter is at least `SIZE_MAX/2`
(equivalently, exceeds `SIZE_MAX/2 - 1`), leaving the counter as already
incremented (modulo `2^64`) on failure; otherwise they return the same
address with the counter incremented by exactly 1, without wrapping. -/
theorem clone_overflow_spec (d : Nat) (h : arc_header) :
    (SIZE_MAX / 2 ≤ h.strong_count →
      (arc_clone d h).ret = none
      ∧ (arc_clone d h).err = some ArcErrno.ETOOMANYREFS
      ∧ (arc_clone d h).header = ⟨h.weak_count, (h.strong_count + 1) % USIZE_MOD⟩)
    ∧ (h.strong_count < SIZE_MAX / 2 →
      (arc_clone d h).ret = some d
      ∧ (arc_clone d h).err = none
      ∧ (arc_clone d h).header = ⟨h.weak_count, h.strong_count + 1⟩
      ∧ h.strong_count + 1 < USIZE_MOD)
    ∧ (SIZE_MAX / 2 ≤ h.weak_count →
      (weak_clone d h).ret = none
      ∧ (weak_clone d h).err = some ArcErrno.ETOOMANYREFS
      ∧ (weak_clone d h).header = ⟨(h.weak_count + 1) % USIZE_MOD, h.strong_count⟩)
    ∧ (h.weak_count < SIZE_MAX / 2 →
      (weak_clone d h).ret = some d
      ∧ (weak_clone d h).err = none
      ∧ (weak_clone d h).header = ⟨h.weak_count + 1, h.strong_count⟩
      ∧ h.weak_count + 1 < USIZE_MOD) := by
  have hMX : SIZE_MAX / 2 = ARC_WEAK_MAX_REFS := by decide
  have h1 : 1 ≤ ARC_WEAK_MAX_REFS := by decide
  have h2 : ARC_WEAK_MAX_REFS + 1 < USIZE_MOD := max_refs_lt_mod
  refine ⟨?_, ?_, ?_, ?_⟩
  · intro hc
    simp [arc_clone, show h.strong_count > ARC_WEAK_MAX_REFS - 1 by omega]
  · intro hc
    simp [arc_clone, show ¬ (h.strong_count > ARC_WEAK_MAX_REFS - 1) by omega,
      inc_mod h.strong_count (by omega)]
    omega
  · intro hc
    simp [weak_clone, show h.weak_count > ARC_WEAK_MAX_REFS - 1 by omega]
  · intro hc
    simp [weak_clone, show ¬ (h.weak_count > ARC_WEAK_MAX_REFS - 1) by omega,
      inc_mod h.weak_count (by omega)]
    omega

/-- Witness for the amended C5 at the exact ceiling value. -/
theorem clone_overflow_spec_witness :
    (arc_clone 0 ⟨1, SIZE_MAX / 2⟩).ret = none
    ∧ (arc_clone 0 ⟨1, SIZE_MAX / 2⟩).err = some ArcErrno.ETOOMANYREFS
    ∧ (arc_clone 0 ⟨1, SIZE_MAX / 2⟩).header = ⟨1, (SIZE_MAX / 2 + 1) % USIZE_MOD⟩ :=
  (clone_overflow_spec 0 ⟨1, SIZE_MAX / 2⟩).1 (by decide)

/-- Counterexample to Claim C8 as stated: on a live allocation with a strong
handle (`strong_count = 1`) whose `weak_count` is `SIZE_MAX`, the downgrade
succeeds but `weak_count` wraps to 0 instead of being incremented by exactly
1 — the code performs the increment in `size_t` arithmetic with no ceiling. -/
theorem downgrade_increment_counterexample :
    1 ≤ SIZE_MAX
    ∧ 0 < (1 : Nat)
    ∧ (arc_downgrade 0 ⟨SIZE_MAX, 1⟩).ret = some 0
    ∧ (arc_downgrade 0 ⟨SIZE_MAX, 1⟩).header.weak_count = 0
    ∧ (arc_downgrade 0 ⟨SIZE_MAX, 1⟩).header.weak_count ≠ SIZE_MAX + 1 := by
  decide

/-- Claim C8 (amended): for every strong handle on a live allocation
(`weak_count >= 1`), `arc_downgrade` always succeeds, returning a weak
handle on the same allocation, sets no error, touches no `strong_count`, and
increments `weak_count` by 1 modulo `2^64`; the increment is by exactly 1
whenever `weak_count < SIZE_MAX` (at `SIZE_MAX` it wraps to 0).  No overflow
ceiling is enforced and there is no failure result. -/
theorem arc_downgrade_spec (d : Nat) (h : arc_header) (hlive : 1 ≤ h.weak_count) :
    (arc_downgrade d h).ret = some d
    ∧ (arc_downgrade d h).err = none
    ∧ (arc_downgrade d h).events = []
    ∧ (arc_downgrade d h).header.strong_count = h.strong_count
    ∧ (arc_downgrade d h).header.weak_count = (h.weak_count + 1) % USIZE_MOD
    ∧ (h.weak_count < SIZE_MAX →
      (arc_downgrade d h).header.weak_count = h.weak_count + 1) := by
  refine ⟨rfl, rfl, rfl, rfl, rfl, ?_⟩
  intro hw
  have e : SIZE_MAX + 1 = USIZE_MOD := by decide
  exact inc_mod h.weak_count (by omega)

/-- Witness for the amended C8 on the creation-state header. -/
theorem arc_downgrade_spec_witness :
    (arc_downgrade 0 ⟨1, 1⟩).ret = some 0
    ∧ (arc_downgrade 0 ⟨1, 1⟩).err = none
    ∧ (arc_downgrade 0 ⟨1, 1⟩).events = []
    ∧ (arc_downgrade 0 ⟨1, 1⟩).header.strong_count = 1
    ∧ (arc_downgrade 0 ⟨1, 1⟩).header.weak_count = (1 + 1) % USIZE_MOD
    ∧ ((1 : Nat) < SIZE_MAX →
      (arc_downgrade 0 ⟨1, 1⟩).header.weak_count = 1 + 1) :=
  arc_downgrade_spec 0 ⟨1, 1⟩ (by decide)

/-- Claim C4 (amended): every operation of the public interface, applied to a
handle the caller legitimately holds, preserves invariant A
(`weak_count >= 1` whenever `strong_count > 0`) provided the pre-state
`weak_count` is below `SIZE_MAX`, so its `size_t` increment cannot wrap.
This no-saturation proviso is necessary: `arc_downgrade` (and a failing
`weak_clone`) increments `weak_count` without an effective cap, and the
increment wraps to 0 at `weak_count = SIZE_MAX`. -/
theorem step_preserves_invA (h h' : arc_header) (st : Step h h')
    (hs : h.strong_count < USIZE_MOD) (hw : h.weak_count < SIZE_MAX)
    (hA : InvA h) : InvA h' := by
  have hSM : SIZE_MAX + 1 = USIZE_MOD := by decide
  cases st with
  | clone d g hg =>
      rw [arc_clone_header]
      intro _
      exact hA hg
  | strongFree d b g hg =>
      rw [arc_free_header]
      by_cases h1 : h.strong_count = 1
      · rw [if_pos h1]
        intro h0
        simp at h0
      · rw [if_neg h1]
        intro _
        exact hA (by omega)
  | downgrade d g hg =>
      intro _
      show 1 ≤ (h.weak_count + 1) % USIZE_MOD
      rw [inc_mod h.weak_count (by omega)]
      omega
  | weakClone d g hg =>
      rw [weak_clone_header]
      intro _
      show 1 ≤ (h.weak_count + 1) % USIZE_MOD
      rw [inc_mod h.weak_count (by omega)]
      omega
  | weakFree d g hg =>
      rw [weak_free_header]
      intro h0
      rw [if_pos h0] at hg
      show 1 ≤ (h.weak_count + (USIZE_MOD - 1)) % USIZE_MOD
      rw [dec_mod h.weak_count (by omega) (by omega)]
      omega
  | upgrade d g hg =>
      rw [weak_upgrade_header]
      by_cases hcond : 0 < h.strong_count ∧ h.strong_count ≤ ARC_WEAK_MAX_REFS - 1
      · rw [if_pos hcond]
        intro _
        rw [if_pos hcond.1] at hg
        show 1 ≤ h.weak_count
        omega
      · rw [if_neg hcond]
        exact hA

/-- Witness for the amended C4: one clone step from the creation state. -/
theorem step_preserves_invA_witness : InvA ⟨1, 2⟩ :=
  step_preserves_invA ⟨1, 1⟩ ⟨1, 2⟩
    (by
      have e : (arc_clone 0 ⟨1, 1⟩).header = ⟨1, 2⟩ := by decide
      exact e ▸ Step.clone 0 ⟨1, 1⟩ (by decide))
    (by decide) (by decide) (fun _ => Nat.le_refl 1)

/-- From the creation state, `k` downgrades (all of them legal: the strong
handle stays live) drive `weak_count` up to any value at most `SIZE_MAX`. -/
theorem reach_downgrade_chain (k : Nat) (hk : 1 + k ≤ SIZE_MAX) :
    Reachable ⟨1, 1⟩ ⟨1 + k, 1⟩ := by
  have hSM : SIZE_MAX + 1 = USIZE_MOD := by decide
  induction k with
  | zero => exact Relation.ReflTransGen.refl
  | succ n ih =>
      have hre : Reachable ⟨1, 1⟩ ⟨1 + n, 1⟩ := ih (by omega)
      have hstep : Step ⟨1 + n, 1⟩ ⟨1 + (n + 1), 1⟩ := by
        have e : (arc_downgrade 0 ⟨1 + n, 1⟩).header = ⟨1 + (n + 1), 1⟩ := by
          show (⟨(1 + n + 1) % USIZE_MOD, 1⟩ : arc_header) = ⟨1 + (n + 1), 1⟩
          rw [inc_mod (1 + n) (by omega)]
          rfl
        exact e ▸ Step.downgrade 0 ⟨1 + n, 1⟩ (Nat.le_refl 1)
      exact hre.tail hstep

/-- Counterexample to Claim C4 as stated: the state with `strong_count = 1`
and `weak_count = SIZE_MAX` satisfies invariant A and is reachable from the
creation state by legal operations (downgrades alone), yet one more
downgrade — a legal operation of the public interface — wraps `weak_count`
to 0 while `strong_count = 1 > 0`, violating the invariant. -/
theorem invA_violated_from_creation :
    Reachable ⟨1, 1⟩ ⟨SIZE_MAX, 1⟩
    ∧ InvA ⟨SIZE_MAX, 1⟩
    ∧ Step ⟨SIZE_MAX, 1⟩ ⟨0, 1⟩
    ∧ ¬ InvA ⟨0, 1⟩ := by
  have hS1 : 1 ≤ SIZE_MAX := by decide
  refine ⟨?_, ?_, ?_, ?_⟩
  · have hr := reach_downgrade_chain (SIZE_MAX - 1) (by omega)
    rwa [show 1 + (SIZE_MAX - 1) = SIZE_MAX by omega] at hr
  · intro _
    exact hS1
  · have e : (arc_downgrade 0 ⟨SIZE_MAX, 1⟩).header = ⟨0, 1⟩ := by decide
    exact e ▸ Step.downgrade 0 ⟨SIZE_MAX, 1⟩ (Nat.le_refl 1)
  · intro hA
    exact absurd (hA (by decide)) (by decide)

/-- Along a sequence of successful clones and non-final frees, the strong
counter tracks `initial + clones - frees`, stays positive, and stays below
the `size_t` modulus. -/
theorem sopRun_algebra (l : List SOp) : ∀ h : arc_header,
    h.strong_count < USIZE_MOD → 1 ≤ h.strong_count → sopOK h l = true →
    (sopRun h l).strong_count + nfree l = h.strong_count + nclone l
    ∧ (sopRun h l).strong_count < USIZE_MOD
    ∧ 1 ≤ (sopRun h l).strong_count := by
  have hm1 : 1 ≤ ARC_WEAK_MAX_REFS := by decide
  have hmax := max_refs_lt_mod
  induction l with
  | nil =>
      intro h hW h1 _
      simp [sopRun, nclone, nfree]
      exact ⟨hW, h1⟩
  | cons op rest ih =>
      intro h hW h1 hok
      cases op with
      | clone =>
          rw [sopOK, Bool.and_eq_true, decide_eq_true_eq] at hok
          obtain ⟨hle, hrest⟩ := hok
          have hstep : (sopNext h SOp.clone).strong_count = h.strong_count + 1 := by
            show (arc_clone 0 h).header.strong_count = h.strong_count + 1
            rw [arc_clone_header]
            exact inc_mod h.strong_count (by omega)
          have hrec := ih (sopNext h SOp.clone) (by omega) (by omega) hrest
          rw [sopRun, nclone, nfree]
          omega
      | free =>
          rw [sopOK, Bool.and_eq_true, decide_eq_true_eq] at hok
          obtain ⟨hge, hrest⟩ := hok
          have hstep : (sopNext h SOp.free).strong_count = h.strong_count - 1 := by
            show (arc_free 0 false h).header.strong_count = h.strong_count - 1
            rw [arc_free_header, if_neg (by omega)]
            exact dec_mod h.strong_count (by omega) hW
          have hrec := ih (sopNext h SOp.free) (by omega) (by omega) hrest
          rw [sopRun, nclone, nfree]
          omega

/-- Claim C9: for every finite sequence of successful `arc_clone` and
non-final `arc_free` operations applied to one allocation's handles from the
creation state (strong = 1, weak = 1), the resulting `strong_count` equals
1 plus the number of clones minus the number of frees (the quantity never
drops below zero along such a sequence). -/
theorem strong_count_clone_free_algebra (l : List SOp)
    (hok : sopOK ⟨1, 1⟩ l = true) :
    nfree l ≤ nclone l
    ∧ (sopRun ⟨1, 1⟩ l).strong_count = 1 + nclone l - nfree l := by
  have h := sopRun_algebra l ⟨1, 1⟩ (by decide) (by decide) hok
  have e : (⟨1, 1⟩ : arc_header).strong_count = 1 := rfl
  rw [e] at h
  omega

/-- Witness for C9: two clones then one free leave the strong count at 2. -/
theorem strong_count_clone_free_algebra_witness :
    nfree [SOp.clone, SOp.clone, SOp.free] ≤ nclone [SOp.clone, SOp.clone, SOp.free]
    ∧ (sopRun ⟨1, 1⟩ [SOp.clone, SOp.clone, SOp.free]).strong_count
      = 1 + nclone [SOp.clone, SOp.clone, SOp.free]
          - nfree [SOp.clone, SOp.clone, SOp.free] :=
  strong_count_clone_free_algebra [SOp.clone, SOp.clone, SOp.free] (by decide)
